import Mathlib

/-!
Verification of ZeroSearch.py (VectorZeroAI/Zero_tooling).

The source file defines the class `ZeroSearch` three times; Python keeps the
last definition (the Serper-API variant with the Tk interface, lines 360-526),
which is the one instantiated by the driver at the bottom of the file.  This
development embeds that variant.

Modelling conventions:
- Python strings are sequences of code points, embedded as `List Char`.
- The three storage files (querries.json, results.json, report.json) are
  embedded as `JFile` values: `absent` (the file does not exist), `empty`
  (the file exists with zero bytes), `stored v` (the file exists and its
  contents decode to the value `v`; `json.dump` output is never zero bytes,
  so a `stored` file always has positive size).
- Network services (Serper search, page fetches, the OpenRouter completion
  endpoint used by `get_querries`) are oracles supplied as inputs: the
  completion service is a function `List Char → List Char` from prompt to
  response content, and each search result comes paired with the outcome of
  fetching and parsing it.
- `_get_ai_summary` in this variant never reaches the network: its request
  headers read `self.openrouter_api_key` (line 516), an attribute this
  variant's `__init__` never sets (it sets `openrouter_key`, line 363), so
  every call deterministically raises `AttributeError` before any completion
  request is issued.  It is embedded as a fallible function that always
  returns that error, and `report` propagates it.  `report` returns the
  outcome (returned string or propagated exception), the post state, and the
  list of text blocks passed to attempted `_get_ai_summary` calls, so that
  theorems can count and inspect the summarization attempts of one
  invocation.
-/

set_option maxRecDepth 4000

/-- Python's whitespace test restricted to the ASCII whitespace characters
(`str.strip()` / `str.split()` with no arguments use this class). -/
def pySpace (c : Char) : Bool :=
  c == ' ' || c == '\t' || c == '\n' || c == '\r' || c == '\x0b' || c == '\x0c'

/-- `s.lstrip()`: drop leading whitespace. -/
def lstrip (s : List Char) : List Char := s.dropWhile pySpace

/-- `s.rstrip()`: drop trailing whitespace. -/
def rstrip (s : List Char) : List Char := (s.reverse.dropWhile pySpace).reverse

/-- Python `s.strip()`: drop whitespace from both ends. -/
def pyStrip (s : List Char) : List Char := rstrip (lstrip s)

/-- Prepend a character to the first piece of a split (helper for `splitNl`). -/
def consHead (c : Char) : List (List Char) → List (List Char)
  | [] => [[c]]
  | h :: r => (c :: h) :: r

/-- Python `s.split('\n')`: split on newline characters, keeping empty pieces
(`"".split('\n') == [""]`). -/
def splitNl : List Char → List (List Char)
  | [] => [[]]
  | c :: t => if c = '\n' then [] :: splitNl t else consHead c (splitNl t)

/-- Strip every line and discard the blank ones. -/
def procLines (l : List (List Char)) : List (List Char) :=
  (l.map pyStrip).filter (fun q => !q.isEmpty)

/-- Modelled from the spec: "splits the returned text on line boundaries,
trims each line, and discards blank lines to obtain the query list"
(spec section 4.2).  Used to compare the code's query cleaning against the
spec's description of it. -/
def specSplit (s : List Char) : List (List Char) := procLines (splitNl s)

/-- Append a character to the last piece of a split (an empty split gets one
piece).  Helper for reasoning about `splitNl` on `s ++ [c]`. -/
def addLast (c : Char) : List (List Char) → List (List Char)
  | [] => [[c]]
  | [h] => [h ++ [c]]
  | h :: h' :: t => h :: addLast c (h' :: t)

/-- Accumulator loop for Python `s.split()` (split on whitespace runs,
no empty tokens).  `cur` holds the current token reversed. -/
def tokensAux : List Char → List Char → List (List Char)
  | [], cur => if cur.isEmpty then [] else [cur.reverse]
  | c :: t, cur =>
    if pySpace c then
      if cur.isEmpty then tokensAux t [] else cur.reverse :: tokensAux t []
    else tokensAux t (c :: cur)

/-- Python `s.split()` with no arguments. -/
def pyTokens (s : List Char) : List (List Char) := tokensAux s []

/-- `' '.join(s.split())` from ZeroSearch.py line 439: collapse every run of
whitespace (including newlines) into a single space. -/
def collapseWs (s : List Char) : List Char := List.intercalate [' '] (pyTokens s)

/-- One corpus entry, the dict built at ZeroSearch.py lines 443-447. -/
structure ExtractionRecord where
  url : List Char
  title : List Char
  text : List Char
deriving DecidableEq, Repr

/-- A storage file: missing, present but zero bytes, or present with contents
that decode to `v`. -/
inductive JFile (α : Type) where
  | absent : JFile α
  | empty : JFile α
  | stored (v : α) : JFile α
deriving DecidableEq, Repr

/-- The persisted state of one ZeroSearch session: querries.json,
results.json and report.json. -/
structure ZState where
  queriesFile : JFile (List (List Char))
  resultsFile : JFile (List ExtractionRecord)
  reportFile : JFile (List Char)
deriving DecidableEq, Repr

/-- The `existing_results` logic of ZeroSearch.py lines 456-460: load the
corpus if the file exists with positive size, else start from `[]`. -/
def loadResults (st : ZState) : List ExtractionRecord :=
  match st.resultsFile with
  | .stored l => l
  | _ => []

/-- One organic entry of the Serper response: `res.get('link', '')` and
`res.get('title', '')` (a missing key and an empty value are
indistinguishable to the code, so both are the empty string here). -/
structure SerperResult where
  link : List Char
  title : List Char
deriving DecidableEq, Repr

/-- Outcome of fetching and parsing one result URL (lines 427-428):
`failure` for any exception raised inside the per-result `try` block
(timeout, connection error, parse error); `page soupTitle soupBody` for a
parsed document, where `soupTitle` is `soup.title` (its string, when the
tag is present) and `soupBody` is the text of `soup.body` after the
script/style/noscript/footer/nav elements are decomposed (absent when the
document has no body). -/
inductive FetchOutcome where
  | failure : FetchOutcome
  | page (soupTitle : Option (List Char)) (soupBody : Option (List Char)) : FetchOutcome
deriving DecidableEq, Repr

/-- Body of the per-result loop of `search` (lines 420-454): skip entries
with no link, drop entries whose fetch/parse raised, and otherwise build the
record with the title-fallback, whitespace collapse and 100000-character
truncation of lines 430-447. -/
def processResult (res : SerperResult) (out : FetchOutcome) : Option ExtractionRecord :=
  if res.link = [] then none
  else
    match out with
    | .failure => none
    | .page soupTitle soupBody =>
      some
        { url := res.link
          title :=
            if res.title = [] then
              match soupTitle with
              | some t => t
              | none => []
            else res.title
          text := (match soupBody with
                   | some b => collapseWs b
                   | none => []).take 100000 }

/-- `search(query)` (lines 405-465), given the provider's organic results
paired with each fetch outcome: build the records of the successful results
in order, then load the current corpus and persist it extended with the new
batch (lines 456-465). -/
def search (results : List (SerperResult × FetchOutcome)) (st : ZState) : ZState :=
  { st with
    resultsFile :=
      .stored (loadResults st ++ results.filterMap fun p => processResult p.1 p.2) }

/-- Externally visible effects of the fetch loop: page requests and calls to
`time.sleep`. -/
inductive Effect where
  | fetch (url : List Char)
  | sleep (secs : Nat)
deriving DecidableEq, Repr

/-- Effects of one iteration of the result loop: nothing for a skipped entry;
a single fetch for a failing one (the exception aborts the iteration before
`time.sleep(1)` on line 450 runs); fetch then a one-second sleep for a
successful one. -/
def seg (p : SerperResult × FetchOutcome) : List Effect :=
  if p.1.link = [] then []
  else
    match p.2 with
    | .failure => [.fetch p.1.link]
    | .page _ _ => [.fetch p.1.link, .sleep 1]

/-- The effect trace of one `search` call. -/
def searchTrace (results : List (SerperResult × FetchOutcome)) : List Effect :=
  (results.map seg).flatten

/-- Scan a trace checking that every fetch other than the first is preceded
by a sleep since the previous fetch.  The flag records whether a sleep (or
nothing at all) has occurred since the last fetch. -/
def sepAux : Bool → List Effect → Bool
  | _, [] => true
  | _, Effect.sleep _ :: r => sepAux true r
  | slept, Effect.fetch _ :: r => slept && sepAux false r

/-- Every pair of consecutive fetches in the trace is separated by a sleep. -/
def fetchesSeparated (tr : List Effect) : Bool := sepAux true tr

/-- Did the fetch of this result succeed? -/
def isPage : FetchOutcome → Bool
  | .failure => false
  | .page _ _ => true

/-- The results that are actually fetched (those with a non-empty link). -/
def fetchedResults (results : List (SerperResult × FetchOutcome)) :
    List (SerperResult × FetchOutcome) :=
  results.filter fun p => !p.1.link.isEmpty

/-- `MAX_TOKENS = 100000` (line 481). -/
def MAX_TOKENS : Nat := 100000

/-- `CHUNK_SIZE = int(MAX_TOKENS * 2.5)` (line 482): `100000 * 2.5` is the
exact float `250000.0`, truncated to `250000`. -/
def CHUNK_SIZE : Nat := 250000

/-- The blank-line separator `"\n\n"`. -/
def nl2 : List Char := ['\n', '\n']

/-- The sentinel returned when the results file is missing or empty
(line 472). -/
def noResultsMsg : List Char := "No results available for reporting".data

/-- The fixed analytic preamble of `_get_ai_summary` (lines 506-511).  The
prompt is built before the crash below, but never leaves the process. -/
def summaryPreamble : List Char :=
  ("You are a web researcher AI. Analyze the following text and create a detailed report capturing all important themes, patterns, and data points. Include specific facts, statistics, and insights. Organize findings logically:\n\n").data

/-- A raised Python exception.  Only the exception these paths actually
raise is modelled. -/
inductive PyErr where
  | attributeError : PyErr
deriving DecidableEq, Repr

deriving instance DecidableEq for Except

/-- `_get_ai_summary(text)` (lines 504-526): the prompt of lines 506-511 is
built, but evaluating the request headers reads `self.openrouter_api_key`
(line 516) — an attribute this variant's `__init__` never sets (it sets
`openrouter_key`, line 363) — so every call raises `AttributeError` before
any completion request is issued. -/
def getAiSummary (_block : List Char) : Except PyErr (List Char) :=
  Except.error PyErr.attributeError

/-- The query-generation prompt of `get_querries` (line 380). -/
def queryPrompt (theme : List Char) : List Char :=
  ("Compile 10 prompts for comprehensive web research of this theme: ").data ++ theme ++
    (". Answer ONLY with the queries.").data

/-- The blob built at line 478: one `"Source: {url}\n{text}"` block per
record in corpus order, blank-line separated. -/
def fullText (results : List ExtractionRecord) : List Char :=
  List.intercalate nl2 (results.map fun r => ("Source: ").data ++ r.url ++ ['\n'] ++ r.text)

/-- The chunk comprehension of line 486: consecutive `n`-character slices
`full_text[i:i+n]` for `i = 0, n, 2n, ...`. -/
def chunksOf (n : Nat) (s : List Char) : List (List Char) :=
  if h : n = 0 ∨ s = [] then []
  else s.take n :: chunksOf n (s.drop n)
termination_by s.length
decreasing_by
  simp only [List.length_drop]
  have h1 : ¬n = 0 ∧ ¬s = [] := not_or.mp h
  have h2 : 0 < s.length := List.length_pos.mpr h1.2
  omega

/-- The per-chunk summary loop of lines 489-491: attempt `_get_ai_summary`
on each chunk in order, stopping at the first raised exception.  Returns the
outcome (all per-chunk summaries, or the first error) together with the
blocks passed to the attempted calls, in call order. -/
def summarizeLoop : List (List Char) → Except PyErr (List (List Char)) × List (List Char)
  | [] => (Except.ok [], [])
  | c :: rest =>
    match getAiSummary c with
    | Except.error e => (Except.error e, [c])
    | Except.ok s =>
      match summarizeLoop rest with
      | (Except.error e, tr) => (Except.error e, c :: tr)
      | (Except.ok ss, tr) => (Except.ok (s :: ss), c :: tr)

/-- The summarization part of `report` (lines 485-496): chunked when the
blob exceeds `CHUNK_SIZE` (per-chunk loop, then one more call on the
blank-line-joined summaries, line 493-494), one direct call otherwise.
Returns the outcome and the blocks passed to attempted `_get_ai_summary`
calls.  With this variant's `_get_ai_summary`, the outcome is always the
`AttributeError` raised on the very first attempt. -/
def reportCore (results : List ExtractionRecord) :
    Except PyErr (List Char) × List (List Char) :=
  if (fullText results).length > CHUNK_SIZE then
    match summarizeLoop (chunksOf CHUNK_SIZE (fullText results)) with
    | (Except.error e, tr) => (Except.error e, tr)
    | (Except.ok summaries, tr) =>
      match getAiSummary (List.intercalate nl2 summaries) with
      | Except.error e => (Except.error e, tr ++ [List.intercalate nl2 summaries])
      | Except.ok final => (Except.ok final, tr ++ [List.intercalate nl2 summaries])
  else
    match getAiSummary (fullText results) with
    | Except.error e => (Except.error e, [fullText results])
    | Except.ok final => (Except.ok final, [fullText results])

/-- Result of one `report()` call: the returned string or the exception that
propagated out, the post state, and the blocks passed to attempted
`_get_ai_summary` calls. -/
structure ReportOut where
  result : Except PyErr (List Char)
  state : ZState
  calls : List (List Char)
deriving DecidableEq, Repr

/-- `report()` (lines 468-502): return the sentinel without touching storage
when the results file is missing or zero-sized (line 471); otherwise load the
corpus and summarize (chunked if the blob exceeds `CHUNK_SIZE`).  A raised
exception propagates out before the persist-and-return of lines 499-502
runs; only on success is the final report persisted and returned. -/
def report (st : ZState) : ReportOut :=
  match st.resultsFile with
  | .absent => ⟨Except.ok noResultsMsg, st, []⟩
  | .empty => ⟨Except.ok noResultsMsg, st, []⟩
  | .stored results =>
    match reportCore results with
    | (Except.error e, tr) => ⟨Except.error e, st, tr⟩
    | (Except.ok final, tr) =>
      ⟨Except.ok final, { st with reportFile := .stored final }, tr⟩

/-- The query-cleaning comprehension of line 397:
`[q.strip() for q in raw_queries.split('\n') if q.strip()]`. -/
def cleanQueries (raw_queries : List Char) : List (List Char) :=
  (splitNl raw_queries).filterMap fun q => if pyStrip q = [] then none else some (pyStrip q)

/-- `get_querries(theme)` (lines 378-403): one completion call, the response
content stripped (line 396), split and cleaned (line 397), persisted over
whatever query list was stored before (lines 400-401), and returned. -/
def get_querries (complete : List Char → List Char) (theme : List Char) (st : ZState) :
    List (List Char) × ZState :=
  (cleanQueries (pyStrip (complete (queryPrompt theme))),
   { st with queriesFile := .stored (cleanQueries (pyStrip (complete (queryPrompt theme)))) })

/-! ## Lemmas about splitting and stripping -/

theorem splitNl_ne_nil (s : List Char) : splitNl s ≠ [] := by
  induction s with
  | nil => simp [splitNl]
  | cons c t ih =>
    simp only [splitNl]
    split
    · simp
    · cases h : splitNl t with
      | nil => simp [consHead]
      | cons a l => simp [consHead]

theorem length_dropWhile_le (p : Char → Bool) (l : List Char) :
    (l.dropWhile p).length ≤ l.length := by
  induction l with
  | nil => simp
  | cons a t ih =>
    rw [List.dropWhile_cons]
    split
    · exact Nat.le_succ_of_le ih
    · exact Nat.le_refl _

theorem consHead_append (c : Char) (l l₂ : List (List Char)) (h : l ≠ []) :
    consHead c (l ++ l₂) = consHead c l ++ l₂ := by
  cases l with
  | nil => exact absurd rfl h
  | cons a r => simp [consHead]

theorem addLast_cons (c : Char) (x : List Char) (l : List (List Char)) (hl : l ≠ []) :
    addLast c (x :: l) = x :: addLast c l := by
  cases l with
  | nil => exact absurd rfl hl
  | cons a r => simp [addLast]

theorem consHead_addLast (a c : Char) (l : List (List Char)) (hl : l ≠ []) :
    consHead a (addLast c l) = addLast c (consHead a l) := by
  cases l with
  | nil => exact absurd rfl hl
  | cons h r =>
    cases r with
    | nil => simp [consHead, addLast]
    | cons h' r' => simp [consHead, addLast]

theorem splitNl_append_nl (s : List Char) : splitNl (s ++ ['\n']) = splitNl s ++ [[]] := by
  induction s with
  | nil => simp [splitNl]
  | cons c t ih =>
    by_cases hc : c = '\n'
    · subst hc
      rw [List.cons_append,
        show splitNl ('\n' :: (t ++ ['\n'])) = [] :: splitNl (t ++ ['\n']) from by
          simp [splitNl],
        ih,
        show splitNl ('\n' :: t) = [] :: splitNl t from by simp [splitNl]]
      simp
    · rw [List.cons_append,
        show splitNl (c :: (t ++ ['\n'])) = consHead c (splitNl (t ++ ['\n'])) from by
          simp [splitNl, hc],
        ih,
        show splitNl (c :: t) = consHead c (splitNl t) from by simp [splitNl, hc],
        consHead_append _ _ _ (splitNl_ne_nil t)]

theorem splitNl_append_char (s : List Char) (c : Char) (hc : ¬c = '\n') :
    splitNl (s ++ [c]) = addLast c (splitNl s) := by
  induction s with
  | nil => simp [splitNl, if_neg hc, consHead, addLast]
  | cons a t ih =>
    by_cases ha : a = '\n'
    · subst ha
      rw [List.cons_append,
        show splitNl ('\n' :: (t ++ [c])) = [] :: splitNl (t ++ [c]) from by simp [splitNl],
        ih,
        show splitNl ('\n' :: t) = [] :: splitNl t from by simp [splitNl],
        addLast_cons _ _ _ (splitNl_ne_nil t)]
    · rw [List.cons_append,
        show splitNl (a :: (t ++ [c])) = consHead a (splitNl (t ++ [c])) from by
          simp [splitNl, ha],
        ih,
        show splitNl (a :: t) = consHead a (splitNl t) from by simp [splitNl, ha],
        consHead_addLast _ _ _ (splitNl_ne_nil t)]

theorem lstrip_cons_space (c : Char) (s : List Char) (hc : pySpace c = true) :
    lstrip (c :: s) = lstrip s := by
  simp [lstrip, List.dropWhile_cons, hc]

theorem lstrip_cons_nospace (c : Char) (s : List Char) (hc : pySpace c = false) :
    lstrip (c :: s) = c :: s := by
  simp [lstrip, List.dropWhile_cons, hc]

theorem pyStrip_nil : pyStrip [] = [] := rfl

theorem pyStrip_cons_space (c : Char) (s : List Char) (hc : pySpace c = true) :
    pyStrip (c :: s) = pyStrip s := by
  simp [pyStrip, lstrip_cons_space _ _ hc]

theorem rstrip_append_space (s : List Char) (c : Char) (hc : pySpace c = true) :
    rstrip (s ++ [c]) = rstrip s := by
  simp [rstrip, List.reverse_append, List.dropWhile_cons, hc]

theorem pyStrip_append_space (s : List Char) (c : Char) (hc : pySpace c = true) :
    pyStrip (s ++ [c]) = pyStrip s := by
  induction s with
  | nil => simp [pyStrip, lstrip, List.dropWhile_cons, hc, rstrip]
  | cons a t ih =>
    cases ha : pySpace a with
    | true =>
      rw [List.cons_append, pyStrip_cons_space _ _ ha, ih, pyStrip_cons_space _ _ ha]
    | false =>
      rw [List.cons_append, pyStrip, lstrip_cons_nospace _ _ ha,
        show a :: (t ++ [c]) = (a :: t) ++ [c] by simp, rstrip_append_space _ _ hc,
        pyStrip, lstrip_cons_nospace _ _ ha]

theorem procLines_nil : procLines [] = [] := rfl

theorem procLines_cons (x : List Char) (l : List (List Char)) :
    procLines (x :: l) =
      if (pyStrip x).isEmpty then procLines l else pyStrip x :: procLines l := by
  simp only [procLines, List.map_cons, List.filter_cons]
  cases h : (pyStrip x).isEmpty <;> simp [h]

theorem procLines_nil_cons (l : List (List Char)) : procLines ([] :: l) = procLines l := by
  rw [procLines_cons]; simp [pyStrip_nil]

theorem procLines_append (l₁ l₂ : List (List Char)) :
    procLines (l₁ ++ l₂) = procLines l₁ ++ procLines l₂ := by
  simp [procLines, List.filter_append]

theorem pyStrip_single_space (c : Char) (hc : pySpace c = true) : pyStrip [c] = [] := by
  simp [pyStrip, lstrip, List.dropWhile_cons, hc, rstrip]

theorem procLines_addLast (c : Char) (hc : pySpace c = true) (l : List (List Char)) :
    procLines (addLast c l) = procLines l := by
  induction l with
  | nil =>
    rw [show addLast c [] = [[c]] from rfl, procLines_cons]
    simp [pyStrip_single_space _ hc, procLines_nil]
  | cons h t ih =>
    cases t with
    | nil =>
      rw [show addLast c [h] = [h ++ [c]] from rfl, procLines_cons, procLines_cons,
        pyStrip_append_space _ _ hc]
    | cons h' t' =>
      rw [show addLast c (h :: h' :: t') = h :: addLast c (h' :: t') from rfl,
        procLines_cons, procLines_cons, ih]

theorem specSplit_cons_space (c : Char) (s : List Char) (hc : pySpace c = true) :
    specSplit (c :: s) = specSplit s := by
  by_cases hcn : c = '\n'
  · subst hcn
    simp only [specSplit, splitNl, if_pos rfl]
    exact procLines_nil_cons _
  · cases hs : splitNl s with
    | nil => exact absurd hs (splitNl_ne_nil s)
    | cons h r =>
      simp only [specSplit, splitNl, if_neg hcn, hs, consHead]
      rw [procLines_cons, procLines_cons, pyStrip_cons_space _ _ hc]

theorem specSplit_append_space (s : List Char) (c : Char) (hc : pySpace c = true) :
    specSplit (s ++ [c]) = specSplit s := by
  by_cases hcn : c = '\n'
  · subst hcn
    rw [specSplit, splitNl_append_nl, procLines_append]
    simp [specSplit, procLines_cons, procLines_nil, pyStrip_nil]
  · rw [specSplit, splitNl_append_char _ _ hcn, procLines_addLast _ hc, specSplit]

theorem specSplit_lstrip (s : List Char) : specSplit (lstrip s) = specSplit s := by
  induction s with
  | nil => rfl
  | cons a t ih =>
    cases ha : pySpace a with
    | true => rw [lstrip_cons_space _ _ ha, ih, specSplit_cons_space _ _ ha]
    | false => rw [lstrip_cons_nospace _ _ ha]

theorem specSplit_revdrop (r : List Char) :
    specSplit ((r.dropWhile pySpace).reverse) = specSplit r.reverse := by
  induction r with
  | nil => rfl
  | cons c r' ih =>
    cases hc : pySpace c with
    | false => simp [List.dropWhile_cons, hc]
    | true =>
      rw [List.dropWhile_cons, if_pos hc, ih, List.reverse_cons,
        specSplit_append_space _ _ hc]

theorem specSplit_rstrip (s : List Char) : specSplit (rstrip s) = specSplit s := by
  have h := specSplit_revdrop s.reverse
  rw [List.reverse_reverse] at h
  exact h

theorem specSplit_pyStrip (s : List Char) : specSplit (pyStrip s) = specSplit s := by
  rw [pyStrip, specSplit_rstrip, specSplit_lstrip]

theorem lstrip_idem (s : List Char) : lstrip (lstrip s) = lstrip s :=
  List.dropWhile_idempotent pySpace s

theorem rstrip_idem (s : List Char) : rstrip (rstrip s) = rstrip s := by
  simp [rstrip, List.reverse_reverse, List.dropWhile_idempotent]

theorem lstrip_rstrip (s : List Char) (h : lstrip s = s) : lstrip (rstrip s) = rstrip s := by
  cases s with
  | nil => rfl
  | cons a t =>
    have ha : pySpace a = false := by
      cases hpa : pySpace a
      · rfl
      · exfalso
        rw [lstrip, List.dropWhile_cons, if_pos hpa] at h
        have hlen := congrArg List.length h
        have hle := length_dropWhile_le pySpace t
        simp only [List.length_cons] at hlen
        omega
    rw [rstrip, List.reverse_cons, List.dropWhile_append]
    cases hde : (List.dropWhile pySpace t.reverse).isEmpty with
    | true =>
      simp only [hde, if_true]
      rw [show List.dropWhile pySpace [a] = [a] from by
        simp [List.dropWhile_cons, ha]]
      simp [lstrip, List.dropWhile_cons, ha]
    | false =>
      simp only [hde, if_false, Bool.false_eq_true]
      rw [List.reverse_append]
      simp [lstrip, List.dropWhile_cons, ha]

theorem pyStrip_idem (s : List Char) : pyStrip (pyStrip s) = pyStrip s := by
  rw [pyStrip, pyStrip, lstrip_rstrip (lstrip s) (lstrip_idem s), rstrip_idem]

theorem filterMap_strip_eq (l : List (List Char)) :
    (l.filterMap fun q => if pyStrip q = [] then none else some (pyStrip q)) = procLines l := by
  induction l with
  | nil => rfl
  | cons x t ih =>
    rw [List.filterMap_cons, procLines_cons]
    by_cases hx : pyStrip x = []
    · simp [hx, ih]
    · have hni : (pyStrip x).isEmpty = false := by
        simp [List.isEmpty_iff, hx]
      simp [hx, hni, ih]

/-- C5: `generate_queries(theme)` returns the model response split on line
boundaries, each line trimmed and blank lines discarded (so no entry is blank
or whitespace-only), and overwrites the stored query list wholesale. -/
theorem c5_get_querries_clean (complete : List Char → List Char) (theme : List Char)
    (st : ZState) :
    (get_querries complete theme st).1 = specSplit (complete (queryPrompt theme))
    ∧ ((get_querries complete theme st).1.all fun q => !q.isEmpty && (pyStrip q == q)) = true
    ∧ (get_querries complete theme st).2.queriesFile =
        .stored (get_querries complete theme st).1 := by
  refine ⟨?_, ?_, rfl⟩
  · show cleanQueries (pyStrip (complete (queryPrompt theme))) = _
    rw [cleanQueries, filterMap_strip_eq]
    exact specSplit_pyStrip _
  · rw [List.all_eq_true]
    intro q hq
    have hq' : q ∈ cleanQueries (pyStrip (complete (queryPrompt theme))) := hq
    rw [cleanQueries, List.mem_filterMap] at hq'
    obtain ⟨a, _, ha⟩ := hq'
    by_cases h : pyStrip a = []
    · simp [h] at ha
    · rw [if_neg h] at ha
      obtain rfl : pyStrip a = q := Option.some.inj ha
      simp [List.isEmpty_iff, h, pyStrip_idem]

/-! ## Lemmas about chunking -/

theorem chunksOf_nil (n : Nat) : chunksOf n [] = [] := by
  rw [chunksOf]; simp

theorem chunksOf_pos (n : Nat) (s : List Char) (hn : ¬n = 0) (hs : ¬s = []) :
    chunksOf n s = s.take n :: chunksOf n (s.drop n) := by
  rw [chunksOf, dif_neg (not_or.mpr ⟨hn, hs⟩)]

theorem chunksOf_eq_nil (n : Nat) (hn : ¬n = 0) (s : List Char) :
    chunksOf n s = [] ↔ s = [] := by
  constructor
  · intro h
    by_contra hs
    rw [chunksOf_pos n s hn hs] at h
    simp at h
  · intro h
    subst h
    exact chunksOf_nil n

theorem chunksOf_flatten (n : Nat) (hn : ¬n = 0) (s : List Char) :
    (chunksOf n s).flatten = s := by
  by_cases hs : s = []
  · subst hs; rw [chunksOf_nil]; rfl
  · rw [chunksOf_pos n s hn hs, List.flatten_cons,
      chunksOf_flatten n hn (s.drop n)]
    exact List.take_append_drop n s
termination_by s.length
decreasing_by
  rw [List.length_drop]
  have hpos : 0 < s.length := List.length_pos.mpr hs
  have hn' : 0 < n := Nat.pos_of_ne_zero hn
  omega

theorem chunksOf_length (n : Nat) (hn : ¬n = 0) (s : List Char) (hs : ¬s = []) :
    (chunksOf n s).length = (s.length - 1) / n + 1 := by
  rw [chunksOf_pos n s hn hs, List.length_cons]
  have hpos : 0 < s.length := List.length_pos.mpr hs
  have hn' : 0 < n := Nat.pos_of_ne_zero hn
  by_cases hd : s.drop n = []
  · rw [(chunksOf_eq_nil n hn _).mpr hd, List.length_nil]
    have hle : s.length ≤ n := List.drop_eq_nil_iff.mp hd
    rw [Nat.div_eq_of_lt (by omega)]
  · have hgt : n < s.length := by
      have := mt List.drop_eq_nil_iff.mpr hd
      omega
    rw [chunksOf_length n hn (s.drop n) hd, List.length_drop]
    have hsplit : s.length - 1 = (s.length - n - 1) + n := by omega
    rw [hsplit, Nat.add_div_right _ hn']
termination_by s.length
decreasing_by
  rw [List.length_drop]
  omega

theorem chunksOf_mem_length_le (n : Nat) (s : List Char) :
    ∀ c ∈ chunksOf n s, c.length ≤ n := by
  intro c hc
  by_cases h0 : n = 0 ∨ s = []
  · rw [chunksOf, dif_pos h0] at hc
    simp at hc
  · have hn : ¬n = 0 := fun h => h0 (Or.inl h)
    have hs : ¬s = [] := fun h => h0 (Or.inr h)
    rw [chunksOf_pos n s hn hs] at hc
    rcases List.mem_cons.mp hc with rfl | hc'
    · exact List.length_take_le n s
    · exact chunksOf_mem_length_le n (s.drop n) c hc'
termination_by s.length
decreasing_by
  rw [List.length_drop]
  have hpos : 0 < s.length := List.length_pos.mpr hs
  have hn' : 0 < n := Nat.pos_of_ne_zero hn
  omega

theorem chunksOf_dropLast_length (n : Nat) (hn : ¬n = 0) (s : List Char) :
    ∀ c ∈ (chunksOf n s).dropLast, c.length = n := by
  intro c hc
  by_cases hs : s = []
  · subst hs; rw [chunksOf_nil] at hc; simp at hc
  · rw [chunksOf_pos n s hn hs] at hc
    by_cases hd : s.drop n = []
    · rw [(chunksOf_eq_nil n hn _).mpr hd] at hc
      simp at hc
    · have hne : chunksOf n (s.drop n) ≠ [] := fun h => hd ((chunksOf_eq_nil n hn _).mp h)
      rw [List.dropLast_cons_of_ne_nil hne] at hc
      rcases List.mem_cons.mp hc with rfl | hc'
      · have hgt : n < s.length := by
          have := mt List.drop_eq_nil_iff.mpr hd
          omega
        rw [List.length_take]
        omega
      · exact chunksOf_dropLast_length n hn (s.drop n) c hc'
termination_by s.length
decreasing_by
  rw [List.length_drop]
  have hpos : 0 < s.length := List.length_pos.mpr hs
  have hn' : 0 < n := Nat.pos_of_ne_zero hn
  omega

theorem reportCore_eval (results : List ExtractionRecord) :
    reportCore results =
      (Except.error PyErr.attributeError,
       [if (fullText results).length > CHUNK_SIZE
        then (fullText results).take CHUNK_SIZE
        else fullText results]) := by
  rw [reportCore.eq_def]
  by_cases h : (fullText results).length > CHUNK_SIZE
  · rw [if_pos h]
    have hs : ¬fullText results = [] := by
      intro he
      rw [he] at h
      simp at h
    rw [chunksOf_pos CHUNK_SIZE _ (by decide) hs, if_pos h]
    rfl
  · rw [if_neg h, if_neg h]
    rfl

theorem report_stored (qf : JFile (List (List Char))) (rf : JFile (List Char))
    (results : List ExtractionRecord) :
    report ⟨qf, .stored results, rf⟩ =
      ⟨Except.error PyErr.attributeError, ⟨qf, .stored results, rf⟩,
       [if (fullText results).length > CHUNK_SIZE
        then (fullText results).take CHUNK_SIZE
        else fullText results]⟩ := by
  rw [show report ⟨qf, .stored results, rf⟩ =
      (match reportCore results with
       | (Except.error e, tr) =>
         (⟨Except.error e, ⟨qf, .stored results, rf⟩, tr⟩ : ReportOut)
       | (Except.ok final, tr) =>
         (⟨Except.ok final, ⟨qf, .stored results, JFile.stored final⟩, tr⟩ : ReportOut))
      from rfl,
    reportCore_eval]

/-- C1 (code bug): the claim's summarization-call counts describe the spec's
intent, but `report()` on any stored corpus never completes a single
summarization call, let alone `C + 1` of them: the first `_get_ai_summary`
attempt raises `AttributeError` (line 516 reads `openrouter_api_key`, which
`__init__` never sets), the exception propagates out of `report()`, the
state is left unchanged, and exactly one block — the blob, or its first
chunk when the blob exceeds `CHUNK_SIZE` — is ever passed to an attempted
call. -/
theorem c1_report_raises (qf : JFile (List (List Char))) (rf : JFile (List Char))
    (results : List ExtractionRecord) :
    (report ⟨qf, .stored results, rf⟩).result = Except.error PyErr.attributeError
    ∧ (report ⟨qf, .stored results, rf⟩).state = ⟨qf, .stored results, rf⟩
    ∧ (report ⟨qf, .stored results, rf⟩).calls =
        [if (fullText results).length > CHUNK_SIZE
         then (fullText results).take CHUNK_SIZE
         else fullText results] := by
  rw [report_stored]
  exact ⟨rfl, rfl, rfl⟩

/-- C7 (code bug): the blob built at line 478 is the blank-line-separated
concatenation of one `"Source: {url}\n{text}"` block per record in corpus
order, and the chunk comprehension of line 486 yields consecutive
non-overlapping slices — each at most `CHUNK_SIZE` characters, all but the
last exactly `CHUNK_SIZE` — whose in-order concatenation equals the blob;
but the blob is never summarized: on any stored corpus the first
`_get_ai_summary` attempt raises `AttributeError` (never-set
`openrouter_api_key`) and `report()` propagates it instead of summarizing
the chunks. -/
theorem c7_blob_chunk_structure (qf : JFile (List (List Char)))
    (rf : JFile (List Char)) (results : List ExtractionRecord) :
    fullText results =
      List.intercalate nl2
        (results.map fun r => ("Source: ").data ++ r.url ++ ['\n'] ++ r.text)
    ∧ (chunksOf CHUNK_SIZE (fullText results)).flatten = fullText results
    ∧ ((chunksOf CHUNK_SIZE (fullText results)).all
        fun c => decide (c.length ≤ CHUNK_SIZE)) = true
    ∧ ((chunksOf CHUNK_SIZE (fullText results)).dropLast.all
        fun c => c.length == CHUNK_SIZE) = true
    ∧ (report ⟨qf, .stored results, rf⟩).result = Except.error PyErr.attributeError := by
  refine ⟨rfl, chunksOf_flatten CHUNK_SIZE (by decide) _, ?_, ?_, ?_⟩
  · rw [List.all_eq_true]
    intro c hc
    exact decide_eq_true (chunksOf_mem_length_le CHUNK_SIZE _ c hc)
  · rw [List.all_eq_true]
    intro c hc
    exact beq_iff_eq.mpr (chunksOf_dropLast_length CHUNK_SIZE (by decide) _ c hc)
  · rw [report_stored]

/-- C2 (amended): `report()` returns the sentinel exactly on the condition
the code tests — the results file is absent or has zero size — and in that
case makes no summarization call and leaves the state untouched.  (When the
file is non-empty but decodes to an empty corpus, `report()` proceeds past
the guard and attempts a summarization call instead: see the
counterexample.) -/
theorem c2_sentinel_on_missing_or_empty_file (st : ZState)
    (h : st.resultsFile = JFile.absent ∨ st.resultsFile = JFile.empty) :
    report st = ⟨Except.ok noResultsMsg, st, []⟩ := by
  obtain ⟨qf, res, rf⟩ := st
  rcases h with h | h
  · have hres : res = JFile.absent := h
    subst hres; rfl
  · have hres : res = JFile.empty := h
    subst hres; rfl

/-- Witness for C2: a state whose results file does not exist. -/
theorem c2_sentinel_witness :
    report ⟨JFile.empty, JFile.absent, JFile.empty⟩ =
      ⟨Except.ok noResultsMsg, ⟨JFile.empty, JFile.absent, JFile.empty⟩, []⟩ :=
  c2_sentinel_on_missing_or_empty_file
    ⟨JFile.empty, JFile.absent, JFile.empty⟩ (Or.inl rfl)

/-- C2 counterexample: when the corpus is empty but its file is non-empty
(the results file holds the two-byte JSON text for the empty list, exactly
what `__init__` writes), `report()` does not return the sentinel: it
proceeds past the guard and attempts one summarization call on the empty
blob, and that call raises `AttributeError` (never-set
`openrouter_api_key`), which propagates out; nothing is persisted and
nothing is returned. -/
theorem c2_counterexample :
    (report ⟨JFile.empty, JFile.stored [], JFile.empty⟩).result ≠
        Except.ok noResultsMsg
    ∧ (report ⟨JFile.empty, JFile.stored [], JFile.empty⟩).result =
        Except.error PyErr.attributeError
    ∧ (report ⟨JFile.empty, JFile.stored [], JFile.empty⟩).calls = [[]]
    ∧ (report ⟨JFile.empty, JFile.stored [], JFile.empty⟩).state =
        ⟨JFile.empty, JFile.stored [], JFile.empty⟩ := by
  refine ⟨by decide, by decide, by decide, by decide⟩

/-- C3: one `search` call appends its batch of successfully built records,
in order, to the previously stored corpus, and the corpus never shrinks. -/
theorem c3_search_batch_append (results : List (SerperResult × FetchOutcome)) (st : ZState) :
    loadResults (search results st) =
      loadResults st ++ results.filterMap (fun p => processResult p.1 p.2)
    ∧ (loadResults st).length ≤ (loadResults (search results st)).length := by
  constructor
  · rfl
  · rw [show loadResults (search results st) =
        loadResults st ++ results.filterMap (fun p => processResult p.1 p.2) from rfl,
      List.length_append]
    omega

/-- C4: a result whose fetch or parse raises is caught and skipped — the
persisted corpus is exactly what it would have been had that result not been
returned at all, so the remaining results are still processed and appended;
likewise a malformed entry with no resolvable URL is skipped before
fetching, whatever its outcome would have been. -/
theorem c4_failure_skipped (l1 l2 : List (SerperResult × FetchOutcome)) (r : SerperResult)
    (o : FetchOutcome) (st : ZState) :
    search (l1 ++ (r, FetchOutcome.failure) :: l2) st = search (l1 ++ l2) st
    ∧ (r.link = [] → search (l1 ++ (r, o) :: l2) st = search (l1 ++ l2) st) := by
  constructor
  · simp [search, List.filterMap_append, List.filterMap_cons, processResult]
  · intro h
    simp [search, List.filterMap_append, List.filterMap_cons, processResult, h]

/-- Witness for C4: a concrete failing result and a concrete linkless result
inserted into a two-element result list leave the state unchanged. -/
theorem c4_failure_skipped_witness :
    search ([(⟨("a").data, ("t").data⟩, FetchOutcome.page none none)] ++
        (⟨[], ("t2").data⟩, FetchOutcome.failure) :: [])
      ⟨JFile.empty, JFile.stored [], JFile.empty⟩ =
      search ([(⟨("a").data, ("t").data⟩, FetchOutcome.page none none)] ++ [])
        ⟨JFile.empty, JFile.stored [], JFile.empty⟩
    ∧ search ([(⟨("a").data, ("t").data⟩, FetchOutcome.page none none)] ++
        (⟨[], ("t2").data⟩, FetchOutcome.page none none) :: [])
      ⟨JFile.empty, JFile.stored [], JFile.empty⟩ =
      search ([(⟨("a").data, ("t").data⟩, FetchOutcome.page none none)] ++ [])
        ⟨JFile.empty, JFile.stored [], JFile.empty⟩ := by
  have h := c4_failure_skipped [(⟨("a").data, ("t").data⟩, FetchOutcome.page none none)] []
    ⟨[], ("t2").data⟩ (FetchOutcome.page none none)
    ⟨JFile.empty, JFile.stored [], JFile.empty⟩
  exact ⟨h.1, h.2 rfl⟩

/-- C10 (code bug): `generate_queries` persists exactly the query list it
returns, for every call; but the report half of the claim has no successful
instance to hold of — `report()` on any stored corpus raises
`AttributeError` before the persist-and-return of lines 499-502 runs, so no
report is ever persisted or returned and the report file keeps whatever it
held before the call. -/
theorem c10_querries_persist_report_raises (complete : List Char → List Char)
    (theme : List Char) (st : ZState) (qf : JFile (List (List Char)))
    (rf : JFile (List Char)) (results : List ExtractionRecord) :
    (get_querries complete theme st).2.queriesFile =
      JFile.stored (get_querries complete theme st).1
    ∧ (report ⟨qf, .stored results, rf⟩).result = Except.error PyErr.attributeError
    ∧ (report ⟨qf, .stored results, rf⟩).state.reportFile = rf := by
  refine ⟨rfl, ?_, ?_⟩ <;> rw [report_stored]

/-- C6: every record a `search` call appends has a non-empty url (linkless
results are skipped before fetching) and a text of at most 100000
characters; so if every record already in the corpus satisfies the
invariant, every record after the call still does, for any sequence of
calls. -/
theorem c6_record_invariant (results : List (SerperResult × FetchOutcome)) (st : ZState)
    (hprev : ∀ r ∈ loadResults st, r.url ≠ [] ∧ r.text.length ≤ 100000) :
    ∀ r ∈ loadResults (search results st), r.url ≠ [] ∧ r.text.length ≤ 100000 := by
  intro r hr
  rw [show loadResults (search results st) =
      loadResults st ++ results.filterMap (fun p => processResult p.1 p.2) from rfl] at hr
  rcases List.mem_append.mp hr with h | h
  · exact hprev r h
  · rw [List.mem_filterMap] at h
    obtain ⟨p, _, hp⟩ := h
    rw [processResult.eq_def] at hp
    by_cases hl : p.1.link = []
    · rw [if_pos hl] at hp; simp at hp
    · rw [if_neg hl] at hp
      cases ho : p.2 with
      | failure => rw [ho] at hp; simp at hp
      | page a b =>
        rw [ho] at hp
        obtain rfl := Option.some.inj hp
        exact ⟨hl, List.length_take_le _ _⟩

/-- Witness for C6: one successful result appended to a corpus stored as the
empty list. -/
theorem c6_record_invariant_witness :
    (⟨("u").data, ("T").data, ("hello world").data⟩ : ExtractionRecord).url ≠ []
    ∧ (⟨("u").data, ("T").data, ("hello world").data⟩ : ExtractionRecord).text.length ≤ 100000 :=
  c6_record_invariant
    [(⟨("u").data, ("T").data⟩, FetchOutcome.page none (some (("hello world").data)))]
    ⟨JFile.empty, JFile.stored [], JFile.empty⟩
    (by intro r hr; simp [loadResults] at hr)
    ⟨("u").data, ("T").data, ("hello world").data⟩
    (by decide)

/-- C8: the record title is the provider title hint when non-empty, else the
document's own title element's string, else the empty string. -/
theorem c8_title_resolution (link hint : List Char) (soupTitle soupBody : Option (List Char))
    (h : link ≠ []) :
    (processResult ⟨link, hint⟩ (FetchOutcome.page soupTitle soupBody)).map
        ExtractionRecord.title =
      some (if hint = [] then soupTitle.getD [] else hint) := by
  rw [processResult.eq_def, if_neg h]
  by_cases hh : hint = []
  · cases soupTitle with
    | none => simp [hh]
    | some t => simp [hh]
  · simp [hh]

/-- Witness for C8: an empty hint falls back to the document title. -/
theorem c8_title_resolution_witness :
    (processResult ⟨("u").data, []⟩
        (FetchOutcome.page (some (("Doc Title").data)) none)).map
      ExtractionRecord.title = some (("Doc Title").data) := by
  have h := c8_title_resolution (("u").data) [] (some (("Doc Title").data)) none (by decide)
  simpa using h

/-- Characterization of the sleep placement in the fetch-loop trace: scanning
from a fresh state, consecutive fetches are all separated by sleeps exactly
when every fetched result except possibly the last succeeded; scanning from
an unslept state fails as soon as anything is fetched. -/
theorem sepAux_searchTrace (results : List (SerperResult × FetchOutcome)) :
    sepAux true (searchTrace results) =
      ((fetchedResults results).dropLast.all fun p => isPage p.2)
    ∧ sepAux false (searchTrace results) = (fetchedResults results).isEmpty := by
  induction results with
  | nil => exact ⟨rfl, rfl⟩
  | cons p t ih =>
    by_cases hl : p.1.link = []
    · have h1 : searchTrace (p :: t) = searchTrace t := by
        simp [searchTrace, seg, hl]
      have h2 : fetchedResults (p :: t) = fetchedResults t := by
        simp [fetchedResults, List.filter_cons, hl]
      rw [h1, h2]
      exact ih
    · have h2 : fetchedResults (p :: t) = p :: fetchedResults t := by
        simp [fetchedResults, List.filter_cons, hl]
      cases ho : p.2 with
      | failure =>
        have h1 : searchTrace (p :: t) = Effect.fetch p.1.link :: searchTrace t := by
          simp [searchTrace, seg, hl, ho]
        rw [h1, h2]
        constructor
        · rw [show sepAux true (Effect.fetch p.1.link :: searchTrace t) =
              sepAux false (searchTrace t) from by simp [sepAux]]
          rw [ih.2]
          cases hf : fetchedResults t with
          | nil => simp
          | cons q ft' => simp [isPage, ho]
        · rw [show sepAux false (Effect.fetch p.1.link :: searchTrace t) = false from by
            simp [sepAux]]
          simp
      | page a b =>
        have h1 : searchTrace (p :: t) =
            Effect.fetch p.1.link :: Effect.sleep 1 :: searchTrace t := by
          simp [searchTrace, seg, hl, ho]
        rw [h1, h2]
        constructor
        · rw [show sepAux true (Effect.fetch p.1.link :: Effect.sleep 1 :: searchTrace t) =
              sepAux true (searchTrace t) from by simp [sepAux]]
          rw [ih.1]
          cases hf : fetchedResults t with
          | nil => simp
          | cons q ft' => simp [isPage, ho]
        · rw [show sepAux false (Effect.fetch p.1.link :: Effect.sleep 1 :: searchTrace t) =
              false from by simp [sepAux]]
          simp

/-- C9 (amended): within one `search` call, every sleep in the trace is
exactly one second, and it is placed after each successful fetch only — so
all consecutive fetches are separated by the delay precisely when every
fetched result except possibly the last succeeded; after a failed fetch the
next fetch happens with no delay (the sleep sits at the end of the `try`
block and is skipped by the exception handler). -/
theorem c9_sleep_only_after_success (results : List (SerperResult × FetchOutcome)) :
    fetchesSeparated (searchTrace results) =
      ((fetchedResults results).dropLast.all fun p => isPage p.2)
    ∧ ((searchTrace results).all fun e =>
        match e with
        | Effect.sleep s => s == 1
        | Effect.fetch _ => true) = true := by
  refine ⟨(sepAux_searchTrace results).1, ?_⟩
  rw [List.all_eq_true]
  intro e he
  rw [searchTrace, List.mem_flatten] at he
  obtain ⟨l, hml, hel⟩ := he
  rw [List.mem_map] at hml
  obtain ⟨p, _, rfl⟩ := hml
  rw [seg] at hel
  by_cases h : p.1.link = []
  · rw [if_pos h] at hel
    simp at hel
  · rw [if_neg h] at hel
    cases hp : p.2 with
    | failure =>
      rw [hp] at hel
      rw [List.mem_singleton] at hel
      subst hel
      rfl
    | page a b =>
      rw [hp] at hel
      rcases List.mem_cons.mp hel with rfl | hel'
      · rfl
      · rw [List.mem_singleton] at hel'
        subst hel'
        rfl

/-- C9 counterexample: a failing fetch immediately followed by a successful
one yields two consecutive fetches with no sleep between them, refuting the
claim that the delay occurs regardless of whether the previous fetch
succeeded or failed. -/
theorem c9_counterexample :
    fetchesSeparated (searchTrace
      [(⟨("u1").data, ("t1").data⟩, FetchOutcome.failure),
       (⟨("u2").data, ("t2").data⟩, FetchOutcome.page none none)]) = false := by
  decide
